import Mathlib

/-!
Verification of the pathfinder-capture core: the Capture Session Manager
(`src/hooks/useCamera.ts`), the Walkthrough Store (`src/hooks/useLocalStorage.ts`)
and the Playback Controller (the `WalkthroughViewer` components).

The TypeScript hooks are single-threaded state machines; each React `useState`
cell becomes a field of an explicit state record, each hook function becomes a
pure transition returning `result × new state`.  Calls to `Date.now()` become
explicit `Nat` parameters (one per call site).  The external camera/haptics
collaborators either yield an encoded image string or throw; a call's combined
outcome is modelled as `Option String` (`none` = some collaborator threw, so
the surrounding `try` block aborts before any state mutation).
-/

/-- One captured frame, from `WalkthroughFrame` as constructed in
`captureFrame` (`useCamera.ts`): an id string, the opaque encoded image and an
epoch-ms timestamp.  The optional position/orientation fields are never
populated by the source (`TODO` comment) and are omitted. -/
structure WalkthroughFrame where
  id : String
  imageData : String
  timestamp : Nat
deriving Repr, DecidableEq

/-- The in-progress capture session, from `CaptureSession` as constructed in
`startCaptureSession` (`useCamera.ts`). -/
structure CaptureSession where
  id : String
  frames : List WalkthroughFrame
  startTime : Nat
  isActive : Bool
  currentStep : Nat
  totalSteps : Nat
deriving Repr, DecidableEq

/-- The two `useState` cells of the `useCamera` hook. -/
structure CameraState where
  isCapturing : Bool
  currentSession : Option CaptureSession
deriving Repr, DecidableEq

/-- Initial hook state: `useState(false)` and `useState(null)`. -/
def initialCameraState : CameraState :=
  { isCapturing := false, currentSession := none }

/-- Session id `session_${Date.now()}` from `startCaptureSession`. -/
def mkSessionId (t : Nat) : String :=
  "session_" ++ Nat.repr t

/-- Frame id `frame_${Date.now()}_${currentSession.frames.length}` from
`captureFrame`. -/
def mkFrameId (t count : Nat) : String :=
  "frame_" ++ Nat.repr t ++ "_" ++ Nat.repr count

/-- `startCaptureSession` (`useCamera.ts` lines 16-32).  `tId` and `tStart` are
the two `Date.now()` readings (for the id and for `startTime`).  Returns the
fresh session and the updated hook state. -/
def startCaptureSession (tId tStart : Nat) (_s : CameraState) :
    CaptureSession × CameraState :=
  let session : CaptureSession :=
    { id := mkSessionId tId
      frames := []
      startTime := tStart
      isActive := true
      currentStep := 0
      totalSteps := 10 }
  (session, { isCapturing := true, currentSession := some session })

/-- The per-call environment of `captureFrame`: the `Date.now()` readings used
for the frame id and the frame timestamp, and the image obtained from the
camera collaborator (or the canvas fallback); `image = none` means the haptics
or camera call threw, so the `catch` branch runs. -/
structure CaptureInput where
  tId : Nat
  tFrame : Nat
  image : Option String
deriving Repr, DecidableEq

/-- `captureFrame` (`useCamera.ts` lines 34-108).  Returns `none` and leaves
the state untouched when no session exists or a collaborator throws (the only
state mutation, `setCurrentSession`, happens after every await); on success it
appends the new frame and increments `currentStep`. -/
def captureFrame (inp : CaptureInput) (s : CameraState) :
    Option WalkthroughFrame × CameraState :=
  match s.currentSession with
  | none => (none, s)
  | some sess =>
    match inp.image with
    | none => (none, s)
    | some imageData =>
      let frame : WalkthroughFrame :=
        { id := mkFrameId inp.tId sess.frames.length
          imageData := imageData
          timestamp := inp.tFrame }
      let updatedSession : CaptureSession :=
        { sess with
            frames := sess.frames ++ [frame]
            currentStep := sess.currentStep + 1 }
      (some frame, { s with currentSession := some updatedSession })

/-- `stopCaptureSession` (`useCamera.ts` lines 110-123): with a session present
it stores the completed session (isActive := false) and returns it; with no
session it only clears `isCapturing` and returns the (null) session. -/
def stopCaptureSession (s : CameraState) : Option CaptureSession × CameraState :=
  match s.currentSession with
  | some sess =>
    let completedSession : CaptureSession := { sess with isActive := false }
    (some completedSession,
      { isCapturing := false, currentSession := some completedSession })
  | none => (none, { s with isCapturing := false })

/-- `resetSession` (`useCamera.ts` lines 125-128). -/
def resetSession (_s : CameraState) : CameraState :=
  { isCapturing := false, currentSession := none }

/-- A sequence of `captureFrame` calls, threading the hook state. -/
def runCaptures (inputs : List CaptureInput) (s : CameraState) : CameraState :=
  inputs.foldl (fun st inp => (captureFrame inp st).2) s

theorem captureFrame_success_session (inp : CaptureInput) (img : String)
    (s : CameraState) (sess : CaptureSession)
    (hs : s.currentSession = some sess) (himg : inp.image = some img) :
    (captureFrame inp s).2.currentSession =
      some { sess with
              frames := sess.frames ++
                [{ id := mkFrameId inp.tId sess.frames.length
                   imageData := img
                   timestamp := inp.tFrame }]
              currentStep := sess.currentStep + 1 } := by
  simp [captureFrame, hs, himg]

theorem runCaptures_counts (inputs : List CaptureInput) :
    ∀ (s : CameraState) (sess : CaptureSession),
      (∀ inp ∈ inputs, inp.image.isSome) →
      s.currentSession = some sess →
      ∃ sess', (runCaptures inputs s).currentSession = some sess' ∧
        sess'.frames.length = sess.frames.length + inputs.length ∧
        sess'.currentStep = sess.currentStep + inputs.length ∧
        sess'.isActive = sess.isActive ∧
        sess'.totalSteps = sess.totalSteps := by
  induction inputs with
  | nil =>
    intro s sess _ hs
    exact ⟨sess, by simpa [runCaptures] using hs, by simp, by simp, rfl, rfl⟩
  | cons inp rest ih =>
    intro s sess hall hs
    obtain ⟨img, himg⟩ := Option.isSome_iff_exists.1 (hall inp (by simp))
    have hstep := captureFrame_success_session inp img s sess hs himg
    have hrest : ∀ i ∈ rest, i.image.isSome := fun i hi => hall i (by simp [hi])
    obtain ⟨sess', h1, h2, h3, h4, h5⟩ :=
      ih ((captureFrame inp s).2) _ hrest hstep
    dsimp only at h2 h3 h4 h5
    refine ⟨sess', ?_, ?_, ?_, ?_, ?_⟩
    · simpa [runCaptures] using h1
    · simp only [List.length_append, List.length_cons, List.length_nil] at h2 ⊢
      omega
    · simp only [List.length_cons] at h3 ⊢
      omega
    · simpa using h4
    · simpa using h5

/-- C1: starting from the idle hook state, `startCaptureSession`, then ten
successful `captureFrame` calls, then `stopCaptureSession` returns a session
with exactly 10 frames, `currentStep = 10` and `isActive = false`. -/
theorem capture_ten_frames (tId tStart : Nat) (inputs : List CaptureInput)
    (hlen : inputs.length = 10) (hall : ∀ inp ∈ inputs, inp.image.isSome) :
    ∃ sess,
      (stopCaptureSession
          (runCaptures inputs
            (startCaptureSession tId tStart initialCameraState).2)).1 = some sess ∧
      sess.frames.length = 10 ∧ sess.currentStep = 10 ∧ sess.isActive = false := by
  obtain ⟨sess', h1, h2, h3, _h4, _h5⟩ :=
    runCaptures_counts inputs (startCaptureSession tId tStart initialCameraState).2
      { id := mkSessionId tId, frames := [], startTime := tStart,
        isActive := true, currentStep := 0, totalSteps := 10 }
      hall (by simp [startCaptureSession])
  refine ⟨{ sess' with isActive := false }, ?_, ?_, ?_, rfl⟩
  · simp [stopCaptureSession, h1]
  · simpa [hlen] using h2
  · simpa [hlen] using h3

/-- Witness for C1 at a concrete run of ten captures. -/
theorem capture_ten_frames_witness :
    ∃ sess,
      (stopCaptureSession
          (runCaptures ((List.range 10).map (fun i => ⟨i, i, some "data"⟩))
            (startCaptureSession 0 0 initialCameraState).2)).1 = some sess ∧
      sess.frames.length = 10 ∧ sess.currentStep = 10 ∧ sess.isActive = false :=
  capture_ten_frames 0 0 ((List.range 10).map (fun i => ⟨i, i, some "data"⟩))
    (by decide) (by decide)

/-- C4: `stopCaptureSession` returns the finalized session (with
`isActive = false`) whenever a session exists, and `null` when none was ever
started. -/
theorem stop_returns_finalized (s : CameraState) :
    (∀ sess, s.currentSession = some sess →
      (stopCaptureSession s).1 = some { sess with isActive := false }) ∧
    (s.currentSession = none → (stopCaptureSession s).1 = none) := by
  constructor
  · intro sess hs
    simp [stopCaptureSession, hs]
  · intro hs
    simp [stopCaptureSession, hs]

/-- Witness for C4: on the never-started state the result is `null`, and after
a concrete start the returned session is the started one with
`isActive = false`. -/
theorem stop_returns_finalized_witness :
    (stopCaptureSession initialCameraState).1 = none ∧
    (stopCaptureSession (startCaptureSession 3 4 initialCameraState).2).1 =
      some { (startCaptureSession 3 4 initialCameraState).1 with isActive := false } :=
  ⟨(stop_returns_finalized initialCameraState).2 rfl,
   (stop_returns_finalized (startCaptureSession 3 4 initialCameraState).2).1
     (startCaptureSession 3 4 initialCameraState).1 rfl⟩

/-- C6: with an active session, a `captureFrame` call whose collaborator
throws returns `null` and leaves the whole hook state exactly unchanged, and a
subsequent successful call on that unchanged state yields a frame (the
operation is retryable). -/
theorem captureFrame_failure_preserves (inp : CaptureInput) (s : CameraState)
    (sess : CaptureSession) (hs : s.currentSession = some sess)
    (hfail : inp.image = none) :
    captureFrame inp s = (none, s) ∧
    ∀ t1 t2 img,
      ((captureFrame ⟨t1, t2, some img⟩ (captureFrame inp s).2).1).isSome = true := by
  have hfirst : captureFrame inp s = (none, s) := by
    simp [captureFrame, hs, hfail]
  refine ⟨hfirst, ?_⟩
  intro t1 t2 img
  rw [hfirst]
  simp [captureFrame, hs]

/-- Witness for C6 at a concrete active session and failing capture. -/
theorem captureFrame_failure_preserves_witness :
    captureFrame ⟨9, 9, none⟩ (startCaptureSession 0 0 initialCameraState).2 =
      (none, (startCaptureSession 0 0 initialCameraState).2) ∧
    ∀ t1 t2 img,
      ((captureFrame ⟨t1, t2, some img⟩
          (captureFrame ⟨9, 9, none⟩
            (startCaptureSession 0 0 initialCameraState).2).2).1).isSome = true :=
  captureFrame_failure_preserves ⟨9, 9, none⟩
    (startCaptureSession 0 0 initialCameraState).2
    (startCaptureSession 0 0 initialCameraState).1 rfl rfl

/-- C10: `resetSession` always yields `currentSession = null` and
`isCapturing = false`, and it is idempotent. -/
theorem resetSession_idempotent (s : CameraState) :
    (resetSession s).currentSession = none ∧
    (resetSession s).isCapturing = false ∧
    resetSession (resetSession s) = resetSession s :=
  ⟨rfl, rfl, rfl⟩

/-- States of the `useCamera` hook reachable by any sequence of
`startCaptureSession`, `captureFrame` and `stopCaptureSession` calls (the
sequences quantified over by the capture-session invariant). -/
inductive ReachCamera : CameraState → Prop where
  | init : ReachCamera initialCameraState
  | start (tId tStart : Nat) {s : CameraState} :
      ReachCamera s → ReachCamera (startCaptureSession tId tStart s).2
  | capture (inp : CaptureInput) {s : CameraState} :
      ReachCamera s → ReachCamera (captureFrame inp s).2
  | stop {s : CameraState} :
      ReachCamera s → ReachCamera (stopCaptureSession s).2

theorem reachCamera_runCaptures (inputs : List CaptureInput) :
    ∀ {s : CameraState}, ReachCamera s → ReachCamera (runCaptures inputs s) := by
  induction inputs with
  | nil => intro s hs; simpa [runCaptures] using hs
  | cons inp rest ih =>
    intro s hs
    have : ReachCamera (captureFrame inp s).2 := ReachCamera.capture inp hs
    simpa [runCaptures] using ih this

/-- Eleven successful captures, more than `totalSteps`. -/
def elevenCaptures : List CaptureInput :=
  List.replicate 11 ⟨0, 0, some "img"⟩

/-- The state reached by a start followed by eleven successful captures. -/
def overCapState : CameraState :=
  runCaptures elevenCaptures (startCaptureSession 0 0 initialCameraState).2

/-- Projection of the in-progress session to `(currentStep, totalSteps)`. -/
def sessionSteps (s : CameraState) : Option (Nat × Nat) :=
  s.currentSession.map (fun sess => (sess.currentStep, sess.totalSteps))

/-- Counterexample to C2 as stated: a state reachable by
`startCaptureSession` followed by eleven successful `captureFrame` calls has
`currentStep = 11 > 10 = totalSteps`; nothing in the manager caps the step
counter. -/
theorem camera_reachable_over_cap :
    ReachCamera overCapState ∧ sessionSteps overCapState = some (11, 10) :=
  ⟨reachCamera_runCaptures elevenCaptures
      (ReachCamera.start 0 0 ReachCamera.init),
   by decide⟩

/-- States reachable when `captureFrame` is only invoked under the
auto-capture ticker's guard (`CameraInterface.handleStartCapture`): the ticker
calls `captureFrame` only while `currentSession` exists and
`currentSession.currentStep < currentSession.totalSteps`. -/
inductive ReachCameraGated : CameraState → Prop where
  | init : ReachCameraGated initialCameraState
  | start (tId tStart : Nat) {s : CameraState} :
      ReachCameraGated s → ReachCameraGated (startCaptureSession tId tStart s).2
  | capture (inp : CaptureInput) {s : CameraState}
      (hguard : ∃ sess, s.currentSession = some sess ∧
        sess.currentStep < sess.totalSteps) :
      ReachCameraGated s → ReachCameraGated (captureFrame inp s).2
  | stop {s : CameraState} :
      ReachCameraGated s → ReachCameraGated (stopCaptureSession s).2

/-- C2 amended: in every state reachable with `captureFrame` gated the way the
auto-capture ticker gates it (only while `currentStep < totalSteps`), the
in-progress session's `currentStep` never exceeds `totalSteps`. -/
theorem gated_currentStep_le_totalSteps {s : CameraState}
    (h : ReachCameraGated s) :
    ∀ sess, s.currentSession = some sess → sess.currentStep ≤ sess.totalSteps := by
  induction h with
  | init =>
    intro sess hs
    simp [initialCameraState] at hs
  | start tId tStart _ _ =>
    intro sess hs
    simp [startCaptureSession] at hs
    subst hs
    simp
  | capture inp hguard _ ih =>
    rename_i s' _
    intro sess hs
    obtain ⟨sess0, hs0, hlt⟩ := hguard
    cases himg : inp.image with
    | none =>
      have heq : (captureFrame inp s').2 = s' := by simp [captureFrame, hs0, himg]
      rw [heq] at hs
      exact ih sess hs
    | some img =>
      rw [captureFrame_success_session inp img s' sess0 hs0 himg] at hs
      rw [Option.some_inj] at hs
      subst hs
      simpa using hlt
  | stop _ ih =>
    intro sess hs
    rename_i s' _
    cases hcur : s'.currentSession with
    | none => simp [stopCaptureSession, hcur] at hs
    | some sess0 =>
      simp only [stopCaptureSession, hcur, Option.some_inj] at hs
      subst hs
      simpa using ih sess0 hcur

/-- Witness for the amended C2 at the state reached by one concrete start. -/
theorem gated_currentStep_le_totalSteps_witness :
    (startCaptureSession 0 0 initialCameraState).1.currentStep ≤
      (startCaptureSession 0 0 initialCameraState).1.totalSteps :=
  gated_currentStep_le_totalSteps
    (ReachCameraGated.start 0 0 ReachCameraGated.init)
    (startCaptureSession 0 0 initialCameraState).1 rfl

/-- The playback cells of `WalkthroughViewer`: `currentFrameIndex` and
`isPlaying` (speed only sets the timer period and does not affect the
transition). -/
structure PlaybackState where
  currentFrameIndex : Nat
  isPlaying : Bool
deriving Repr, DecidableEq

/-- The `setInterval` body of the playback effect (`WalkthroughViewer`):
`prev => prev >= session.frames.length - 1 ? (setIsPlaying(false); 0) : prev + 1`.
JavaScript evaluates `frames.length - 1` over the integers, hence the `Int`
comparison. -/
def playbackTick (numFrames : Nat) (s : PlaybackState) : PlaybackState :=
  if (s.currentFrameIndex : Int) ≥ (numFrames : Int) - 1 then
    { currentFrameIndex := 0, isPlaying := false }
  else
    { s with currentFrameIndex := s.currentFrameIndex + 1 }

/-- One firing opportunity of the playback timer: the effect only installs the
interval while `isPlaying` is true, so a stopped state is left untouched. -/
def playbackStep (numFrames : Nat) (s : PlaybackState) : PlaybackState :=
  if s.isPlaying then playbackTick numFrames s else s

/-- C3: while playing, a tick strictly before the last frame advances
`currentFrameIndex` by one; the tick taken at the last frame rewinds to frame 0
and stops playback; and a stopped state is never advanced again (no continuous
looping). -/
theorem playback_tick_spec (numFrames : Nat) (s : PlaybackState)
    (hframes : 1 ≤ numFrames) (hplay : s.isPlaying = true) :
    (s.currentFrameIndex + 1 < numFrames →
      playbackStep numFrames s =
        { currentFrameIndex := s.currentFrameIndex + 1, isPlaying := true }) ∧
    (s.currentFrameIndex = numFrames - 1 →
      playbackStep numFrames s = { currentFrameIndex := 0, isPlaying := false }) ∧
    (∀ s' : PlaybackState, s'.isPlaying = false →
      playbackStep numFrames s' = s') := by
  refine ⟨?_, ?_, ?_⟩
  · intro hlt
    have hcond : ¬ ((s.currentFrameIndex : Int) ≥ (numFrames : Int) - 1) := by
      omega
    simp [playbackStep, playbackTick, hplay, hcond]
  · intro hlast
    have hcond : (s.currentFrameIndex : Int) ≥ (numFrames : Int) - 1 := by
      omega
    simp [playbackStep, playbackTick, hplay, hcond]
  · intro s' hstop
    simp [playbackStep, hstop]

/-- Witness for C3: a five-frame session playing at its last frame rewinds to
frame 0 and stops. -/
theorem playback_tick_spec_witness :
    playbackStep 5 { currentFrameIndex := 4, isPlaying := true } =
      { currentFrameIndex := 0, isPlaying := false } :=
  (playback_tick_spec 5 { currentFrameIndex := 4, isPlaying := true }
    (by decide) rfl).2.1 rfl

/-- JavaScript division, partialized: `none` stands for the non-finite result
(NaN or ±Infinity) that JS produces on division by zero. -/
def jsDiv (a b : Rat) : Option Rat :=
  if b = 0 then none else some (a / b)

/-- The progress expression of `WalkthroughViewer`:
`session.frames.length > 0 ? (currentFrameIndex / (session.frames.length - 1)) * 100 : 0`. -/
def progress (numFrames currentFrameIndex : Nat) : Option Rat :=
  if 0 < numFrames then
    (jsDiv (currentFrameIndex : Rat) ((numFrames : Rat) - 1)).map (fun q => q * 100)
  else some 0

/-- `goToNextFrame` of `WalkthroughViewer`: advance only while strictly before
the last frame (JS evaluates `frames.length - 1` over the integers). -/
def goToNextFrame (numFrames currentFrameIndex : Nat) : Nat :=
  if (currentFrameIndex : Int) < (numFrames : Int) - 1 then
    currentFrameIndex + 1
  else currentFrameIndex

/-- `goToPrevFrame` of `WalkthroughViewer`. -/
def goToPrevFrame (currentFrameIndex : Nat) : Nat :=
  if 0 < currentFrameIndex then currentFrameIndex - 1 else currentFrameIndex

/-- Counterexample to C5 as stated: for a loaded session with exactly one
frame the guard `frames.length > 0` passes and the progress expression divides
`0` by `frames.length - 1 = 0` — a division by zero (NaN in JS). -/
theorem progress_one_frame_div_zero : progress 1 0 = none := by
  simp [progress, jsDiv]

/-- C5 amended: the progress expression divides by zero only in the
one-frame case; a zero-frame session yields progress `0` (no division), any
session with at least two frames divides by a non-zero denominator, and with
zero frames the next/prev navigation actions are no-ops. -/
theorem progress_safe_amended (numFrames currentFrameIndex : Nat) :
    progress 0 currentFrameIndex = some 0 ∧
    (2 ≤ numFrames → (progress numFrames currentFrameIndex).isSome = true) ∧
    goToNextFrame 0 currentFrameIndex = currentFrameIndex ∧
    goToPrevFrame 0 = 0 := by
  refine ⟨by simp [progress], ?_, ?_, by simp [goToPrevFrame]⟩
  · intro h2
    have hpos : 0 < numFrames := by omega
    have hden : ((numFrames : Rat) - 1) ≠ 0 := by
      have : (2 : Rat) ≤ (numFrames : Rat) := by exact_mod_cast h2
      intro hzero
      have : (numFrames : Rat) = 1 := by linarith
      rw [this] at *
      linarith
    simp [progress, jsDiv, hpos, hden]
  · unfold goToNextFrame
    rw [if_neg]
    push_cast
    omega

/-- Witness for the amended C5 at a five-frame session on frame 2. -/
theorem progress_safe_amended_witness :
    progress 0 2 = some 0 ∧
    (progress 5 2).isSome = true ∧
    goToNextFrame 0 2 = 2 ∧
    goToPrevFrame 0 = 0 :=
  ⟨(progress_safe_amended 5 2).1,
   (progress_safe_amended 5 2).2.1 (by decide),
   (progress_safe_amended 5 2).2.2.1,
   (progress_safe_amended 5 2).2.2.2⟩

/-- Metadata of a stored session, from the `metadata` object built in
`Index.handleDescriptionSave`. -/
structure SessionMetadata where
  deviceInfo : String
  totalFrames : Nat
  duration : Nat
  totalSize : Nat
deriving Repr, DecidableEq

/-- A persisted walkthrough session, with the fields the source constructs in
`Index.handleDescriptionSave` and reads in the gallery/viewer components. -/
structure WalkthroughSession where
  id : String
  title : String
  description : String
  frames : List WalkthroughFrame
  createdAt : Nat
  updatedAt : Nat
  isUploaded : Bool
  metadata : SessionMetadata
deriving Repr, DecidableEq

/-- A `Partial<WalkthroughSession>` argument of `updateSession`: each field is
either absent or supplies a new value. -/
structure SessionPatch where
  id? : Option String := none
  title? : Option String := none
  description? : Option String := none
  frames? : Option (List WalkthroughFrame) := none
  createdAt? : Option Nat := none
  updatedAt? : Option Nat := none
  isUploaded? : Option Bool := none
  metadata? : Option SessionMetadata := none
deriving Repr, DecidableEq

/-- The object spread `{ ...session, ...updates }`: present patch fields win. -/
def applyPatch (session : WalkthroughSession) (p : SessionPatch) :
    WalkthroughSession :=
  { id := p.id?.getD session.id
    title := p.title?.getD session.title
    description := p.description?.getD session.description
    frames := p.frames?.getD session.frames
    createdAt := p.createdAt?.getD session.createdAt
    updatedAt := p.updatedAt?.getD session.updatedAt
    isUploaded := p.isUploaded?.getD session.isUploaded
    metadata := p.metadata?.getD session.metadata }

/-- The body mapped over the list by `updateSession` (`useLocalStorage.ts`
lines 36-42): `session.id === id ? { ...session, ...updates, updatedAt: Date.now() } : session`. -/
def updateEntry (now : Nat) (id : String) (updates : SessionPatch)
    (session : WalkthroughSession) : WalkthroughSession :=
  if session.id = id then { applyPatch session updates with updatedAt := now }
  else session

/-- `updateSession` of `useWalkthroughStorage`: map `updateEntry` over the
stored list. -/
def updateSession (now : Nat) (id : String) (updates : SessionPatch)
    (sessions : List WalkthroughSession) : List WalkthroughSession :=
  sessions.map (updateEntry now id updates)

/-- `addSession` of `useWalkthroughStorage`: prepend. -/
def addSession (session : WalkthroughSession)
    (sessions : List WalkthroughSession) : List WalkthroughSession :=
  session :: sessions

/-- `deleteSession` of `useWalkthroughStorage`. -/
def deleteSession (id : String) (sessions : List WalkthroughSession) :
    List WalkthroughSession :=
  sessions.filter (fun session => session.id ≠ id)

/-- `getSession` of `useWalkthroughStorage`. -/
def getSession (id : String) (sessions : List WalkthroughSession) :
    Option WalkthroughSession :=
  sessions.find? (fun session => session.id = id)

/-- C7: `updateSession` with an id present on no stored session returns the
stored list unchanged — same elements, same order, no timestamp refreshed. -/
theorem updateSession_absent_id (now : Nat) (id : String)
    (updates : SessionPatch) (sessions : List WalkthroughSession)
    (habsent : ∀ session ∈ sessions, session.id ≠ id) :
    updateSession now id updates sessions = sessions := by
  induction sessions with
  | nil => rfl
  | cons session rest ih =>
    have hne : session.id ≠ id := habsent session (by simp)
    have hrest : ∀ s ∈ rest, s.id ≠ id := fun s hs => habsent s (by simp [hs])
    simp [updateSession, updateEntry, hne, List.map] at ih ⊢
    exact ih hrest

/-- Concrete stored session used by the store witnesses. -/
def storedSession : WalkthroughSession :=
  { id := "a"
    title := "kitchen"
    description := ""
    frames := []
    createdAt := 0
    updatedAt := 0
    isUploaded := false
    metadata := { deviceInfo := "dev", totalFrames := 0, duration := 0, totalSize := 0 } }

/-- Witness for C7: updating an absent id on a one-session store is a no-op. -/
theorem updateSession_absent_id_witness :
    updateSession 7 "b" { title? := some "new" } [storedSession] = [storedSession] :=
  updateSession_absent_id 7 "b" { title? := some "new" } [storedSession]
    (by intro s hs; simp at hs; subst hs; decide)

/-- A patch that back-dates `createdAt`, used to refute C9 as stated. -/
def backdatePatch : SessionPatch := { createdAt? := some 10 }

/-- Counterexample to C9 as stated: `updateSession` merges the caller's patch
before stamping `updatedAt`, so a patch containing `createdAt` survives; the
call `updateSession("a", { createdAt: 10 })` at time 5 (clock monotone, both
previous stamps were 0) leaves the stored entry with `createdAt = 10` but
`updatedAt = 5 < createdAt`. -/
theorem updateSession_updatedAt_cex :
    ((updateSession 5 "a" backdatePatch [storedSession]).map
        (fun s => (s.createdAt, s.updatedAt))) = [(10, 5)] ∧
    ¬ (10 : Nat) ≤ 5 := by
  constructor
  · decide
  · decide

/-- C9 amended: provided the clock is monotone (`now` is at least the
session's previous `createdAt` and `updatedAt`) and the patch does not itself
override `createdAt`, the updated entry is in the result of `updateSession`
on the session's id, and it satisfies `updatedAt >= createdAt` and
`updatedAt >=` the previous `updatedAt`. -/
theorem updateSession_updatedAt_mono (now : Nat) (id : String)
    (updates : SessionPatch) (sessions : List WalkthroughSession)
    (session : WalkthroughSession)
    (hmem : session ∈ sessions) (hid : session.id = id)
    (hc : updates.createdAt? = none)
    (h1 : session.createdAt ≤ now) (h2 : session.updatedAt ≤ now) :
    updateEntry now id updates session ∈ updateSession now id updates sessions ∧
    (updateEntry now id updates session).createdAt ≤
      (updateEntry now id updates session).updatedAt ∧
    session.updatedAt ≤ (updateEntry now id updates session).updatedAt := by
  refine ⟨List.mem_map_of_mem _ hmem, ?_, ?_⟩
  · simp [updateEntry, hid, applyPatch, hc]
    exact h1
  · simp [updateEntry, hid, applyPatch]
    exact h2

/-- A patch marking a session uploaded, as `Index.handleUploadSession` does. -/
def uploadPatch : SessionPatch := { isUploaded? := some true }

/-- Witness for the amended C9: marking the stored session uploaded at time 3
keeps `updatedAt >= createdAt` and advances `updatedAt`. -/
theorem updateSession_updatedAt_mono_witness :
    updateEntry 3 "a" uploadPatch storedSession ∈
      updateSession 3 "a" uploadPatch [storedSession] ∧
    (updateEntry 3 "a" uploadPatch storedSession).createdAt ≤
      (updateEntry 3 "a" uploadPatch storedSession).updatedAt ∧
    storedSession.updatedAt ≤ (updateEntry 3 "a" uploadPatch storedSession).updatedAt :=
  updateSession_updatedAt_mono 3 "a" uploadPatch [storedSession] storedSession
    (by simp) rfl rfl (by decide) (by decide)

/-- No output of `Nat.digitChar` is an underscore. -/
theorem digitChar_ne_underscore (m : Nat) : Nat.digitChar m ≠ '_' := by
  unfold Nat.digitChar
  by_cases h : m < 16
  · interval_cases m <;> decide
  · repeat rw [if_neg (by omega)]
    decide

theorem toDigitsCore_succ (fuel n : Nat) (ds : List Char) :
    Nat.toDigitsCore 10 (fuel + 1) n ds =
      if n / 10 = 0 then Nat.digitChar (n % 10) :: ds
      else Nat.toDigitsCore 10 fuel (n / 10) (Nat.digitChar (n % 10) :: ds) :=
  rfl

theorem mem_toDigitsCore :
    ∀ (fuel n : Nat) (ds : List Char) (c : Char),
      c ∈ Nat.toDigitsCore 10 fuel n ds → c ∈ ds ∨ ∃ m, c = Nat.digitChar m := by
  intro fuel
  induction fuel with
  | zero => intro n ds c hc; exact Or.inl hc
  | succ fuel ih =>
    intro n ds c hc
    rw [toDigitsCore_succ] at hc
    by_cases h10 : n / 10 = 0
    · rw [if_pos h10] at hc
      rcases List.mem_cons.1 hc with hc | hc
      · exact Or.inr ⟨n % 10, hc⟩
      · exact Or.inl hc
    · rw [if_neg h10] at hc
      rcases ih (n / 10) (Nat.digitChar (n % 10) :: ds) c hc with hc | hc
      · rcases List.mem_cons.1 hc with hc | hc
        · exact Or.inr ⟨n % 10, hc⟩
        · exact Or.inl hc
      · exact Or.inr hc

theorem toDigitsCore_accum :
    ∀ (fuel n : Nat) (ds : List Char),
      Nat.toDigitsCore 10 fuel n ds = Nat.toDigitsCore 10 fuel n [] ++ ds := by
  intro fuel
  induction fuel with
  | zero => intro n ds; rfl
  | succ fuel ih =>
    intro n ds
    rw [toDigitsCore_succ, toDigitsCore_succ]
    by_cases h10 : n / 10 = 0
    · rw [if_pos h10, if_pos h10]
      rfl
    · rw [if_neg h10, if_neg h10, ih (n / 10) (Nat.digitChar (n % 10) :: ds),
        ih (n / 10) [Nat.digitChar (n % 10)], List.append_assoc]
      rfl

/-- Decimal read-back of a digit list, a left inverse of `Nat.toDigits 10`. -/
def decodeDigits (l : List Char) : Nat :=
  l.foldl (fun acc c => 10 * acc + (c.toNat - 48)) 0

theorem digitChar_val : ∀ m < 10, (Nat.digitChar m).toNat - 48 = m := by decide

theorem decode_toDigitsCore :
    ∀ (fuel n : Nat), n < fuel →
      decodeDigits (Nat.toDigitsCore 10 fuel n []) = n := by
  intro fuel
  induction fuel with
  | zero => intro n hn; omega
  | succ fuel ih =>
    intro n hn
    rw [toDigitsCore_succ]
    by_cases h10 : n / 10 = 0
    · rw [if_pos h10]
      have hlt : n % 10 < 10 := by omega
      simp only [decodeDigits, List.foldl_cons, List.foldl_nil]
      rw [digitChar_val _ hlt]
      omega
    · rw [if_neg h10, toDigitsCore_accum fuel (n / 10) [Nat.digitChar (n % 10)]]
      have hfuel : n / 10 < fuel := by omega
      have hdec := ih (n / 10) hfuel
      have hlt : n % 10 < 10 := by omega
      simp only [decodeDigits, List.foldl_append, List.foldl_cons, List.foldl_nil]
      simp only [decodeDigits] at hdec
      rw [hdec, digitChar_val _ hlt]
      omega

theorem repr_data (n : Nat) : (Nat.repr n).data = Nat.toDigits 10 n := rfl

theorem repr_data_injective {m n : Nat}
    (h : (Nat.repr m).data = (Nat.repr n).data) : m = n := by
  rw [repr_data, repr_data] at h
  have h1 := decode_toDigitsCore (m + 1) m (Nat.lt_succ_self m)
  have h2 := decode_toDigitsCore (n + 1) n (Nat.lt_succ_self n)
  unfold Nat.toDigits at h
  rw [← h1, ← h2, h]

theorem repr_no_underscore (n : Nat) : '_' ∉ (Nat.repr n).data := by
  rw [repr_data]
  intro hmem
  rcases mem_toDigitsCore (n + 1) n [] '_' hmem with h | ⟨m, hm⟩
  · simp at h
  · exact digitChar_ne_underscore m hm.symm

theorem append_cons_eq_split {c : Char} :
    ∀ (l1 : List Char) {l2 r1 r2 : List Char}, c ∉ l1 → c ∉ l2 →
      l1 ++ c :: r1 = l2 ++ c :: r2 → l1 = l2 ∧ r1 = r2 := by
  intro l1
  induction l1 with
  | nil =>
    intro l2 r1 r2 _ hc2 heq
    cases l2 with
    | nil => simpa using heq
    | cons b l2t =>
      simp only [List.nil_append, List.cons_append, List.cons.injEq] at heq
      exact absurd (heq.1 ▸ List.mem_cons_self b l2t) hc2
  | cons a l1t ih =>
    intro l2 r1 r2 hc1 hc2 heq
    cases l2 with
    | nil =>
      simp only [List.nil_append, List.cons_append, List.cons.injEq] at heq
      exact absurd (heq.1.symm ▸ List.mem_cons_self a l1t) hc1
    | cons b l2t =>
      simp only [List.cons_append, List.cons.injEq] at heq
      have hc1t : c ∉ l1t := fun hmem => hc1 (List.mem_cons_of_mem a hmem)
      have hc2t : c ∉ l2t := fun hmem => hc2 (List.mem_cons_of_mem b hmem)
      obtain ⟨hl, hr⟩ := ih hc1t hc2t heq.2
      exact ⟨by rw [heq.1, hl], hr⟩

theorem mkFrameId_data (t k : Nat) :
    (mkFrameId t k).data =
      "frame_".data ++ ((Nat.repr t).data ++ '_' :: (Nat.repr k).data) := by
  simp [mkFrameId, String.data_append, show ("_" : String).data = ['_'] from rfl]

/-- Two frame ids agree only if their frame-count components agree: the count
after the last underscore disambiguates ids minted in the same millisecond. -/
theorem mkFrameId_inj_count {t1 k1 t2 k2 : Nat}
    (h : mkFrameId t1 k1 = mkFrameId t2 k2) : k1 = k2 := by
  have hd := congrArg String.data h
  rw [mkFrameId_data, mkFrameId_data] at hd
  have hd2 := List.append_cancel_left hd
  obtain ⟨-, hN⟩ :=
    append_cons_eq_split (Nat.repr t1).data (repr_no_underscore t1)
      (repr_no_underscore t2) hd2
  exact repr_data_injective hN

/-- The frames list of a session whose k-th frame carries an id minted from
some timestamp and the frame count k, as `captureFrame` produces. -/
def FramesIndexed (frames : List WalkthroughFrame) : Prop :=
  ∀ (k : Nat) (h : k < frames.length), ∃ t, (frames.get ⟨k, h⟩).id = mkFrameId t k

theorem framesIndexed_append {frames : List WalkthroughFrame}
    (hF : FramesIndexed frames) (f : WalkthroughFrame) (t : Nat)
    (hf : f.id = mkFrameId t frames.length) : FramesIndexed (frames ++ [f]) := by
  intro k hk
  by_cases hlt : k < frames.length
  · obtain ⟨t', ht'⟩ := hF k hlt
    refine ⟨t', ?_⟩
    rw [List.get_eq_getElem, List.getElem_append_left hlt]
    exact ht'
  · have hk' : k = frames.length := by
      simp only [List.length_append, List.length_cons, List.length_nil] at hk
      omega
    subst hk'
    refine ⟨t, ?_⟩
    rw [List.get_eq_getElem, List.getElem_append_right (Nat.le_refl _)]
    simpa using hf

theorem runCaptures_frames_indexed (inputs : List CaptureInput) :
    ∀ (s : CameraState) (sess : CaptureSession),
      s.currentSession = some sess → FramesIndexed sess.frames →
      ∀ sess', (runCaptures inputs s).currentSession = some sess' →
        FramesIndexed sess'.frames := by
  induction inputs with
  | nil =>
    intro s sess hs hF sess' hs'
    simp only [runCaptures, List.foldl_nil] at hs'
    rw [hs] at hs'
    rw [Option.some_inj] at hs'
    exact hs' ▸ hF
  | cons inp rest ih =>
    intro s sess hs hF sess' hs'
    have hrun : runCaptures (inp :: rest) s = runCaptures rest (captureFrame inp s).2 := by
      simp [runCaptures]
    rw [hrun] at hs'
    cases himg : inp.image with
    | none =>
      have heq : (captureFrame inp s).2 = s := by simp [captureFrame, hs, himg]
      rw [heq] at hs'
      exact ih s sess hs hF sess' hs'
    | some img =>
      have hstep := captureFrame_success_session inp img s sess hs himg
      refine ih (captureFrame inp s).2 _ hstep ?_ sess' hs'
      exact framesIndexed_append hF _ inp.tId rfl

theorem framesIndexed_nodup {frames : List WalkthroughFrame}
    (hF : FramesIndexed frames) : (frames.map (fun f => f.id)).Nodup := by
  rw [List.nodup_iff_injective_get]
  intro i j hij
  have hi : i.1 < frames.length := by simpa using i.2
  have hj : j.1 < frames.length := by simpa using j.2
  obtain ⟨ti, hti⟩ := hF i.1 hi
  obtain ⟨tj, htj⟩ := hF j.1 hj
  have h1 : (frames.map (fun f => f.id)).get i = (frames.get ⟨i.1, hi⟩).id := by
    rw [List.get_eq_getElem, List.get_eq_getElem, List.getElem_map]
  have h2 : (frames.map (fun f => f.id)).get j = (frames.get ⟨j.1, hj⟩).id := by
    rw [List.get_eq_getElem, List.get_eq_getElem, List.getElem_map]
  have hk : mkFrameId ti i.1 = mkFrameId tj j.1 := by
    rw [← hti, ← htj, ← h1, ← h2, hij]
  exact Fin.ext (mkFrameId_inj_count hk)

/-- C8: within one capture session (a start followed by any sequence of
successful or failing `captureFrame` calls, with arbitrary `Date.now()`
readings — in particular repeated ones), the generated frame ids are pairwise
distinct: each id embeds the frame count at its mint time after the last
underscore. -/
theorem frame_ids_nodup (tId tStart : Nat) (inputs : List CaptureInput)
    (sess : CaptureSession)
    (h : (runCaptures inputs
        (startCaptureSession tId tStart initialCameraState).2).currentSession =
          some sess) :
    (sess.frames.map (fun f => f.id)).Nodup := by
  apply framesIndexed_nodup
  refine runCaptures_frames_indexed inputs _
    { id := mkSessionId tId, frames := [], startTime := tStart,
      isActive := true, currentStep := 0, totalSteps := 10 }
    (by simp [startCaptureSession]) ?_ sess h
  intro k hk
  simp at hk

/-- Two frames captured in the same millisecond (`Date.now() = 7` twice). -/
def sameMsInputs : List CaptureInput :=
  [⟨7, 7, some "a"⟩, ⟨7, 7, some "b"⟩]

/-- The session produced by `sameMsInputs` after a start at time 0. -/
def sameMsSession : CaptureSession :=
  { id := mkSessionId 0
    frames := [⟨mkFrameId 7 0, "a", 7⟩, ⟨mkFrameId 7 1, "b", 7⟩]
    startTime := 0
    isActive := true
    currentStep := 2
    totalSteps := 10 }

/-- Witness for C8: two same-millisecond captures still get distinct ids. -/
theorem frame_ids_nodup_witness :
    (sameMsSession.frames.map (fun f => f.id)).Nodup :=
  frame_ids_nodup 0 0 sameMsInputs sameMsSession (by decide)
